import Mathlib

/-!
Verification of the webhook sender core (`src/webhooks/senders/base.py`).

The Python module is shallowly embedded: Python values flowing through the
configuration dictionaries, payloads and outcome mappings are modelled by the
inductive type `Val`; Python dictionaries by insertion-ordered association
lists with an overwriting `setKey`; exceptions by `Except String`; the HTTP
transport, the JSON serializer and the form encoder (external collaborators)
by explicit function parameters.  Machine-width arithmetic inside SHA-256 is
`Nat` reduced `% 2^32`.
-/

namespace Webhooks

/-- A Python value as it appears in the sender's kwargs/dkwargs dictionaries,
payloads and outcome mappings: strings, ints (non-negative in all observed
uses), booleans, `None`, and string-keyed dicts. -/
inductive Val where
  | str : String → Val
  | nat : Nat → Val
  | bool : Bool → Val
  | none : Val
  | dict : List (String × Val) → Val

/-- Python truthiness (`bool(v)`) for the modelled values. -/
def truthy : Val → Bool
  | .str s => s ≠ ""
  | .nat n => n ≠ 0
  | .bool b => b
  | .none => false
  | .dict d => !d.isEmpty

/-- `d[k] = v` on an insertion-ordered dictionary: overwrite the existing
binding in place, else append. -/
def setKey : List (String × Val) → String → Val → List (String × Val)
  | [], k, v => [(k, v)]
  | (k', v') :: rest, k, v =>
      if k' = k then (k, v) :: rest else (k', v') :: setKey rest k v

/-- `d1.update(d2)`: fold every binding of `d2` into `d1`, overwriting. -/
def dictUpdate (d1 d2 : List (String × Val)) : List (String × Val) :=
  d2.foldl (fun acc kv => setKey acc kv.1 kv.2) d1

/-- `k in d` / `d[k]` lookup (first binding wins, as in a Python dict where
keys are unique). -/
def getVal (d : List (String × Val)) (k : String) : Option Val :=
  match d with
  | [] => Option.none
  | (k', v) :: rest => if k' = k then some v else getVal rest k

/-- `class EncodingType`: the two accepted MIME strings. -/
def EncodingType.FORMS : String := "application/x-www-form-urlencoded"

def EncodingType.JSON : String := "application/json"

/-- `_value_in(key, required, dkwargs, kwargs)`: kwargs first, then dkwargs;
a missing required key raises `TypeError("Sender function needs a <key>
argument")`, a missing optional key yields `None`. -/
def _value_in (key : String) (required : Bool)
    (dkwargs kwargs : List (String × Val)) : Except String Val :=
  match getVal kwargs key with
  | some v => .ok v
  | Option.none =>
    match getVal dkwargs key with
    | some v => .ok v
    | Option.none =>
      if required then
        .error ("Sender function needs a " ++ key ++ " argument")
      else
        .ok Val.none

/-- `value_in(key, dkwargs, kwargs)`. -/
def value_in (key : String) (dkwargs kwargs : List (String × Val)) :
    Except String Val :=
  _value_in key true dkwargs kwargs

/-- `value_in_opt(key, dkwargs, kwargs)`. -/
def value_in_opt (key : String) (dkwargs kwargs : List (String × Val)) :
    Except String Val :=
  _value_in key false dkwargs kwargs

namespace Senderable

/-- `Senderable._default_timeout()`. -/
def _default_timeout : Nat := 5

/-- `Senderable.get_url()` (also the `url` cached property: the lookup is
pure, so caching is value-transparent; on failure the exception is re-raised
at every access because `cached_property` stores nothing). -/
def get_url (dkwargs kwargs : List (String × Val)) : Except String Val :=
  _value_in "url" true dkwargs kwargs

/-- `Senderable.get_custom_headers()` — optional, never raises. -/
def get_custom_headers (dkwargs kwargs : List (String × Val)) : Val :=
  match _value_in "custom_headers" false dkwargs kwargs with
  | .ok v => v
  | .error _ => Val.none

/-- `Senderable.get_signing_secret()` — optional, never raises. -/
def get_signing_secret (dkwargs kwargs : List (String × Val)) : Val :=
  match _value_in "signing_secret" false dkwargs kwargs with
  | .ok v => v
  | .error _ => Val.none

/-- The `TypeError` message raised for an encoding value that is neither of
the two accepted MIME strings (apostrophes written as `\x27`). -/
def invalidEncodingMsg : String :=
  "Invalid choice for \x27encoding\x27. Valid selections are \x27" ++
    EncodingType.FORMS ++ "\x27 or \x27" ++ EncodingType.JSON ++ "\x27"

/-- `Senderable.get_encoding()`: resolve the required key, then raise unless
the value equals one of the two accepted MIME strings.  (The Python guard is
`if not encoding or not (encoding == JSON or encoding == FORMS)`; the
truthiness test is subsumed because both accepted strings are truthy, and
`==` against a non-string value is `False`.) -/
def get_encoding (dkwargs kwargs : List (String × Val)) :
    Except String String :=
  match _value_in "encoding" true dkwargs kwargs with
  | .error m => .error m
  | .ok encoding =>
    match encoding with
    | .str s =>
      if s = EncodingType.JSON ∨ s = EncodingType.FORMS then .ok s
      else .error invalidEncodingMsg
    | _ => .error invalidEncodingMsg

/-- `Senderable.get_timeout()`: `_value_in('timeout', False, ...) or
self._default_timeout()` — Python `or` keeps the left value when truthy,
otherwise yields the default; the optional lookup never raises. -/
def get_timeout (dkwargs kwargs : List (String × Val)) : Val :=
  match _value_in "timeout" false dkwargs kwargs with
  | .ok v => if truthy v then v else Val.nat _default_timeout
  | .error _ => Val.nat _default_timeout

/-- `Senderable.jsonify_payload()`: a payload that is already a string is
assumed pre-serialized and passed through; anything else goes through the
external `StandardJSONEncoder` serializer. -/
def jsonify_payload (serialize : Val → String) (payload : Val) : Val :=
  match payload with
  | .str s => .str s
  | p => .str (serialize p)

/-- `Senderable.format_payload()`: re-resolves the encoding via
`self.get_encoding()`, serializes for JSON, passes the raw payload through
for form encoding. -/
def format_payload (serialize : Val → String)
    (dkwargs kwargs : List (String × Val)) (payload : Val) :
    Except String Val :=
  match get_encoding dkwargs kwargs with
  | .error m => .error m
  | .ok enc =>
    if enc = EncodingType.JSON then
      .ok (jsonify_payload serialize payload)
    else
      .ok payload

end Senderable

/-! ### SHA-256 (`Crypto.Hash.SHA256`)

The PyCryptodome hash used by `create_signature` is embedded as the standard
FIPS 180-4 SHA-256 over byte lists, with 32-bit words as `Nat % 2^32`. -/

namespace SHA256

def mask32 : Nat := 4294967296

def add32 (a b : Nat) : Nat := (a + b) % mask32

def rotr (n x : Nat) : Nat := ((x >>> n) ||| (x <<< (32 - n))) % mask32

def shr (n x : Nat) : Nat := x >>> n

def ch (x y z : Nat) : Nat := (x &&& y) ^^^ ((x ^^^ 4294967295) &&& z)

def maj (x y z : Nat) : Nat := (x &&& y) ^^^ (x &&& z) ^^^ (y &&& z)

def bsig0 (x : Nat) : Nat := rotr 2 x ^^^ rotr 13 x ^^^ rotr 22 x

def bsig1 (x : Nat) : Nat := rotr 6 x ^^^ rotr 11 x ^^^ rotr 25 x

def ssig0 (x : Nat) : Nat := rotr 7 x ^^^ rotr 18 x ^^^ shr 3 x

def ssig1 (x : Nat) : Nat := rotr 17 x ^^^ rotr 19 x ^^^ shr 10 x

/-- The 64 round constants (FIPS 180-4 §4.2.2, written in decimal). -/
def K : List Nat :=
  [1116352408, 1899447441, 3049323471, 3921009573, 961987163,
   1508970993, 2453635748, 2870763221, 3624381080, 310598401,
   607225278, 1426881987, 1925078388, 2162078206, 2614888103,
   3248222580, 3835390401, 4022224774, 264347078, 604807628,
   770255983, 1249150122, 1555081692, 1996064986, 2554220882,
   2821834349, 2952996808, 3210313671, 3336571891, 3584528711,
   113926993, 338241895, 666307205, 773529912, 1294757372,
   1396182291, 1695183700, 1986661051, 2177026350, 2456956037,
   2730485921, 2820302411, 3259730800, 3345764771, 3516065817,
   3600352804, 4094571909, 275423344, 430227734, 506948616,
   659060556, 883997877, 958139571, 1322822218, 1537002063,
   1747873779, 1955562222, 2024104815, 2227730452, 2361852424,
   2428436474, 2756734187, 3204031479, 3329325298]

/-- The eight-word hash state. -/
structure Hash8 where
  a : Nat
  b : Nat
  c : Nat
  d : Nat
  e : Nat
  f : Nat
  g : Nat
  h : Nat

/-- The initial hash state (FIPS 180-4 §5.3.3, written in decimal). -/
def initH : Hash8 :=
  ⟨1779033703, 3144134277, 1013904242, 2773480762,
   1359893119, 2600822924, 528734635, 1541459225⟩

/-- Extend the message schedule, keeping the words newest-first:
`w[t] = ssig1 w[t-2] + w[t-7] + ssig0 w[t-15] + w[t-16]`. -/
def extendW : Nat → List Nat → List Nat
  | 0, w => w
  | n+1, w =>
      extendW n
        (add32 (add32 (ssig1 (w.getD 1 0)) (w.getD 6 0))
           (add32 (ssig0 (w.getD 14 0)) (w.getD 15 0)) :: w)

/-- One compression round with constant `kt` and schedule word `wt`. -/
def compressRound (kt wt : Nat) (s : Hash8) : Hash8 :=
  let t1 := add32 s.h (add32 (bsig1 s.e) (add32 (ch s.e s.f s.g) (add32 kt wt)))
  let t2 := add32 (bsig0 s.a) (maj s.a s.b s.c)
  ⟨add32 t1 t2, s.a, s.b, s.c, add32 s.d t1, s.e, s.f, s.g⟩

/-- Compress one 512-bit block (given as 16 big-endian words) into the
state. -/
def compressBlock (h0 : Hash8) (words16 : List Nat) : Hash8 :=
  let w := (extendW 48 words16.reverse).reverse
  let s := (K.zip w).foldl (fun s kw => compressRound kw.1 kw.2 s) h0
  ⟨add32 h0.a s.a, add32 h0.b s.b, add32 h0.c s.c, add32 h0.d s.d,
   add32 h0.e s.e, add32 h0.f s.f, add32 h0.g s.g, add32 h0.h s.h⟩

/-- `n` big-endian bytes of `v`. -/
def bytesBE : Nat → Nat → List Nat
  | 0, _ => []
  | n+1, v => bytesBE n (v / 256) ++ [v % 256]

/-- Big-endian 4-byte groups to 32-bit words. -/
def bytesToWords : List Nat → List Nat
  | b0 :: b1 :: b2 :: b3 :: rest =>
      (((b0 * 256 + b1) * 256 + b2) * 256 + b3) :: bytesToWords rest
  | _ => []

/-- Split a byte list into 64-byte chunks (structural recursion on a fuel
bound of `l.length`, which dominates the chunk count, so the kernel can
evaluate it). -/
def chunk64Fuel : Nat → List Nat → List (List Nat)
  | 0, _ => []
  | _, [] => []
  | n+1, b :: rest => ((b :: rest).take 64) :: chunk64Fuel n ((b :: rest).drop 64)

def chunk64 (l : List Nat) : List (List Nat) := chunk64Fuel l.length l

/-- FIPS 180-4 padding: `0x80`, zeros to 56 mod 64, 8-byte bit length. -/
def padMessage (msg : List Nat) : List Nat :=
  let L := msg.length
  msg ++ [0x80] ++ List.replicate ((64 - ((L + 9) % 64)) % 64) 0 ++
    bytesBE 8 (8 * L)

/-- SHA-256 of a byte list, as the 32-byte digest. -/
def sha256 (msg : List Nat) : List Nat :=
  let blocks := chunk64 (padMessage msg)
  let hh := blocks.foldl (fun h b => compressBlock h (bytesToWords b)) initH
  (bytesBE 4 hh.a) ++ (bytesBE 4 hh.b) ++ (bytesBE 4 hh.c) ++ (bytesBE 4 hh.d) ++
    (bytesBE 4 hh.e) ++ (bytesBE 4 hh.f) ++ (bytesBE 4 hh.g) ++ (bytesBE 4 hh.h)

def hexChar (n : Nat) : Char :=
  if n < 10 then Char.ofNat (48 + n) else Char.ofNat (87 + n)

/-- Lowercase hex of a byte list (`hexdigest`). -/
def hexdigest (bytes : List Nat) : String :=
  String.mk (bytes.foldr (fun b acc => hexChar (b / 16) :: hexChar (b % 16) :: acc) [])

/-- UTF-8 encoding of one character. -/
def encodeChar (c : Char) : List Nat :=
  let n := c.toNat
  if n < 0x80 then [n]
  else if n < 0x800 then
    [0xC0 ||| (n >>> 6), 0x80 ||| (n &&& 0x3F)]
  else if n < 0x10000 then
    [0xE0 ||| (n >>> 12), 0x80 ||| ((n >>> 6) &&& 0x3F), 0x80 ||| (n &&& 0x3F)]
  else
    [0xF0 ||| (n >>> 18), 0x80 ||| ((n >>> 12) &&& 0x3F),
     0x80 ||| ((n >>> 6) &&& 0x3F), 0x80 ||| (n &&& 0x3F)]

/-- UTF-8 bytes of a string (`s.encode('utf-8')`). -/
def utf8Bytes (s : String) : List Nat :=
  (s.data.map encodeChar).flatten

end SHA256

/-- Modelled from the spec: `create_signature(body, secret)` is specified as
`"sha256=" + hex(HMAC-SHA256(secret, body))`; this is RFC 2104 HMAC with
SHA-256, block size 64 bytes, over byte lists.  (The source has no HMAC —
this definition exists to compare the code's digest against the spec's.) -/
def hmac_sha256 (key msg : List Nat) : List Nat :=
  let key0 := if key.length > 64 then SHA256.sha256 key else key
  let keyP := key0 ++ List.replicate (64 - key0.length) 0
  let ipad := keyP.map (fun b => b ^^^ 0x36)
  let opad := keyP.map (fun b => b ^^^ 0x5c)
  SHA256.sha256 (opad ++ SHA256.sha256 (ipad ++ msg))

namespace Senderable

/-- `Senderable.create_signature(payload, secret)`: a non-string payload is
first form-encoded (external `requests.PreparedRequest()._encode_params`,
passed in as `encodeParams`); secret and payload are UTF-8 encoded; the
digest is `SHA256.new(secret); hmac.update(payload)` — i.e. a plain SHA-256
over `secret ++ payload`, despite the variable's name. -/
def create_signature (encodeParams : Val → String) (payload : Val)
    (secret : String) : String :=
  let payloadStr :=
    match payload with
    | .str s => s
    | p => encodeParams p
  "sha256=" ++
    SHA256.hexdigest
      (SHA256.sha256 (SHA256.utf8Bytes secret ++ SHA256.utf8Bytes payloadStr))

end Senderable

/-! ### The delivery state machine (`Senderable._send`) -/

/-- Result of one `requests.post` call: a response with status code and a
UTF-8 text body (serving as both `.text` and `.content.decode('utf-8')`),
or a raised transport exception with its `str(ex)` message. -/
inductive TransportResult where
  | response (status_code : Nat) (body : String)
  | raise (msg : String)

/-- The external collaborators consumed by the sender: the HTTP transport
(indexed by the 1-based attempt number — url, headers, body and timeout are
fixed before the loop), the JSON serializer, and the form encoder. -/
structure Capabilities where
  transport : Nat → TransportResult
  serialize : Val → String
  encodeParams : Val → String

/-- The constructor arguments of `Senderable` (the wrapped payload function
applied to its args/kwargs is represented by its result, `payload`). -/
structure Sender where
  dkwargs : List (String × Val)
  kwargs : List (String × Val)
  hash_value : Option String
  attempts : List Nat
  payload : Val

namespace Senderable

/-- The keys of `sending_metadata` written inside the loop; a `none` field
is a key never inserted into the dict. -/
structure Metadata where
  success : Bool
  attempt : Option Nat
  status_code : Option Nat
  response : Option String

def initMetadata : Metadata :=
  ⟨false, Option.none, Option.none, Option.none⟩

/-- The loop's mutable state: `sending_metadata`, `self.error`, plus ghost
traces of the performed sleeps (durations) and POST calls (attempt
numbers). -/
structure LoopState where
  md : Metadata
  error : Option String
  sleeps : List Nat
  posts : List Nat

/-- `str(ex).replace('"', "'")`: with a one-character pattern, Python's
`replace` substitutes every double quote (code 34) by a single quote
(code 39). -/
def replaceQuotes (s : String) : String :=
  String.mk (s.data.map (fun c => if c = Char.ofNat 34 then Char.ofNat 39 else c))

/-- The synthesized failure body
`'{"status_code": 500, "status":"failure","error":"' + err + '"}'`. -/
def synthFailureBody (err : String) : String :=
  "\x7b\"status_code\": 500, \"status\":\"failure\",\"error\":\"" ++ err ++ "\"\x7d"

/-- One iteration body of the attempt loop (the `try/except` block): resolve
`self.url` (first touched here, inside the `try`), POST, classify.  Returns
the updated state and `true` when the attempt succeeded (`break`). -/
def attemptStep (urlRes : Except String Val)
    (transport : Nat → TransportResult) (st : LoopState) (attempt : Nat) :
    LoopState × Bool :=
  let md := { st.md with attempt := some attempt }
  match urlRes with
  | .error msg =>
      let err := replaceQuotes msg
      ({ st with
          md := { md with response := some (synthFailureBody err) },
          error := some err }, false)
  | .ok _ =>
    match transport attempt with
    | .raise msg =>
        let err := replaceQuotes msg
        ({ st with
            md := { md with response := some (synthFailureBody err) },
            error := some err,
            posts := st.posts ++ [attempt] }, false)
    | .response status body =>
        let md := { md with status_code := some status }
        if 200 ≤ status ∧ status < 300 then
          ({ st with
              md := { md with response := some body, success := true },
              posts := st.posts ++ [attempt] }, true)
        else
          ({ st with
              md := md,
              error := some ("Status code (" ++ toString status ++
                "). Message: " ++ body),
              posts := st.posts ++ [attempt] }, false)

/-- `for i, wait in enumerate(range(len(self.attempts) - 1))`: both `i` and
`wait` take the values `0 .. len-2` (the schedule's stored durations are
never read).  `i` is the current index, the second argument the remaining
iterations; after a failed attempt that is not the last
(`attempt == len(attempts) - 1`), the loop sleeps for `wait = i`. -/
def runLoop (urlRes : Except String Val)
    (transport : Nat → TransportResult) (lastAttempt : Nat) :
    Nat → Nat → LoopState → LoopState
  | _, 0, st => st
  | i, m+1, st =>
    let step := attemptStep urlRes transport st (i + 1)
    if step.2 then step.1
    else if i + 1 = lastAttempt then
      runLoop urlRes transport lastAttempt (i + 1) m step.1
    else
      runLoop urlRes transport lastAttempt (i + 1) m
        { step.1 with sleeps := step.1.sleeps ++ [i] }

/-- Truthiness of `self.error` (`None` or a string). -/
def truthyError : Option String → Bool
  | Option.none => false
  | some s => s ≠ ""

/-- `sending_metadata` as a dict: `success` from initialization, the loop's
keys only when they were written, then `error` and `post_attributes`. -/
def metadataDict (md : Metadata) (errorVal : Val)
    (post : List (String × Val)) : List (String × Val) :=
  [("success", Val.bool md.success)] ++
  (match md.attempt with
   | some a => [("attempt", Val.nat a)]
   | Option.none => []) ++
  (match md.status_code with
   | some c => [("status_code", Val.nat c)]
   | Option.none => []) ++
  (match md.response with
   | some r => [("response", Val.str r)]
   | Option.none => []) ++
  [("error", errorVal), ("post_attributes", Val.dict post)]

/-- Everything `_send` does before the loop: build `post_attributes` =
`{timeout, headers (custom ∪ forced Content-Type ∪ optional signature),
data}`.  Raises (as the Python does) for an invalid encoding, for truthy
non-dict custom headers, and for a truthy non-string signing secret. -/
def sendPrep (serialize : Val → String) (encodeParams : Val → String)
    (s : Sender) : Except String (List (String × Val)) :=
  let timeout := get_timeout s.dkwargs s.kwargs
  let customHeaders := get_custom_headers s.dkwargs s.kwargs
  let headersVal := if truthy customHeaders then customHeaders else Val.dict []
  match get_encoding s.dkwargs s.kwargs with
  | .error m => .error m
  | .ok encoding =>
    match headersVal with
    | .dict hs =>
      let hs := setKey hs "Content-Type" (Val.str encoding)
      match format_payload serialize s.dkwargs s.kwargs s.payload with
      | .error m => .error m
      | .ok data =>
        let signing := get_signing_secret s.dkwargs s.kwargs
        match signing with
        | .str secret =>
          if secret ≠ "" then
            let hs := setKey hs "x-hub-signature"
              (Val.str (create_signature encodeParams data secret))
            .ok [("timeout", timeout), ("headers", Val.dict hs),
                 ("data", data)]
          else
            .ok [("timeout", timeout), ("headers", Val.dict hs),
                 ("data", data)]
        | other =>
          if truthy other then
            .error "TypeError: a truthy non-string signing secret"
          else
            .ok [("timeout", timeout), ("headers", Val.dict hs),
                 ("data", data)]
    | _ => .error "TypeError: str object does not support item assignment"

/-- Line 185: `sending_metadata['error'] = None if
sending_metadata['success'] or not self.error else self.error`. -/
def errorValOf (success : Bool) (error : Option String) : Val :=
  if success || !truthyError error then Val.none
  else Val.str (error.getD "")

/-- Lines 188–189: a string payload is wrapped into `{'payload': <string>}`
so the final result is always a mapping; a non-mapping non-string payload
makes the final `dict.update` raise a `TypeError`. -/
def wrapPayload : Val → Except String (List (String × Val))
  | .str p => .ok [("payload", Val.str p)]
  | .dict d => .ok d
  | _ => .error "TypeError: payload is not a mapping"

/-- Lines 191–193: `payload['hash'] = self.hash_value` when the hash value
is not `None` and non-empty. -/
def addHash (payload : List (String × Val)) (hash_value : Option String) :
    List (String × Val) :=
  match hash_value with
  | some h => if h.length > 0 then setKey payload "hash" (Val.str h)
              else payload
  | Option.none => payload

/-- `Senderable._send()`: prepare the fixed request attributes, run the
attempt loop, then assemble the outcome: the `error` key (`None` when
successful or when `self.error` is falsy), `post_attributes`, then the
payload merged last (a string payload wrapped as `{'payload': ...}`, the
hash value added under `'hash'` when non-empty).  The returned triple also
carries the ghost sleep and POST traces. -/
def _send (caps : Capabilities) (s : Sender) :
    Except String (List (String × Val) × List Nat × List Nat) :=
  match sendPrep caps.serialize caps.encodeParams s with
  | .error m => .error m
  | .ok post_attributes =>
    let n := s.attempts.length - 1
    let final := runLoop (get_url s.dkwargs s.kwargs) caps.transport n 0 n
      ⟨initMetadata, Option.none, [], []⟩
    let sending_metadata :=
      metadataDict final.md (errorValOf final.md.success final.error)
        post_attributes
    match wrapPayload s.payload with
    | .error m => .error m
    | .ok payloadDict =>
      .ok (dictUpdate sending_metadata (addHash payloadDict s.hash_value),
           final.sleeps, final.posts)

/-- `Senderable.send()` is a plain wrapper around `_send`. -/
def send (caps : Capabilities) (s : Sender) :
    Except String (List (String × Val) × List Nat × List Nat) :=
  _send caps s

end Senderable

/-- An attempt fails when the transport raises or the status code is outside
`[200, 300)`. -/
def failsAt (transport : Nat → TransportResult) (a : Nat) : Bool :=
  match transport a with
  | .raise _ => true
  | .response status _ => decide (status < 200 ∨ 300 ≤ status)

/-- The error message recorded for a failed attempt: the formatted
status-code message, or the exception text with double quotes replaced. -/
def failMsg (transport : Nat → TransportResult) (a : Nat) : String :=
  match transport a with
  | .raise m => Senderable.replaceQuotes m
  | .response status body =>
      "Status code (" ++ toString status ++ "). Message: " ++ body

example :
    SHA256.hexdigest (SHA256.sha256 (SHA256.utf8Bytes "abc")) =
      "ba7816bf8f01cfea414140de5dae2223b00361a396177a9cb410ff61f20015ad" := by
  decide

example :
    Senderable.create_signature (fun _ => "") (Val.str "\x7b\"a\":1\x7d") "secret" =
      "sha256=37bd34e4b292ef9df8bfe70e3f50526139249490c3c2594cf20175ba7665e01d" := by
  decide

set_option maxRecDepth 8192 in
example :
    SHA256.hexdigest (hmac_sha256 (SHA256.utf8Bytes "secret") (SHA256.utf8Bytes "\x7b\"a\":1\x7d")) =
      "aa9e2e3575f5d7098b6caccd790888c36d5fdb63342a73bada2d6a51747a8494" := by
  decide

/-! ### Dictionary lemmas -/

theorem getVal_setKey_self (d : List (String × Val)) (k : String) (v : Val) :
    getVal (setKey d k v) k = some v := by
  induction d with
  | nil => simp [setKey, getVal]
  | cons kv rest ih =>
    obtain ⟨k', v'⟩ := kv
    by_cases h : k' = k
    · simp [setKey, h, getVal]
    · simp [setKey, h, getVal, ih]

theorem getVal_setKey_ne (d : List (String × Val)) (k k' : String) (v : Val)
    (h : k' ≠ k) : getVal (setKey d k v) k' = getVal d k' := by
  have hkk : ¬ k = k' := fun e => h (Eq.symm e)
  induction d with
  | nil => simp [setKey, getVal, hkk]
  | cons kv rest ih =>
    obtain ⟨k0, v0⟩ := kv
    by_cases h0 : k0 = k
    · subst h0
      simp [setKey, getVal, hkk]
    · by_cases h1 : k0 = k'
      · simp [setKey, h0, getVal, h1, h]
      · simp [setKey, h0, getVal, h1, ih]

theorem getVal_eq_none_of_not_mem (p : List (String × Val)) (k : String)
    (h : k ∉ p.map Prod.fst) : getVal p k = Option.none := by
  induction p with
  | nil => simp [getVal]
  | cons kv rest ih =>
    obtain ⟨k0, v0⟩ := kv
    simp only [List.map_cons, List.mem_cons] at h
    push_neg at h
    have h1 : ¬ k0 = k := fun e => h.1 (Eq.symm e)
    simp [getVal, h1, ih h.2]

theorem getVal_dictUpdate_none (p : List (String × Val)) (k : String)
    (h : getVal p k = Option.none) (d : List (String × Val)) :
    getVal (dictUpdate d p) k = getVal d k := by
  induction p generalizing d with
  | nil => simp [dictUpdate]
  | cons kv p ih =>
    obtain ⟨k0, v0⟩ := kv
    have h1 : k0 ≠ k := by
      intro e
      simp [getVal, e] at h
    have h2 : getVal p k = Option.none := by
      simpa [getVal, h1] using h
    show getVal (dictUpdate (setKey d k0 v0) p) k = getVal d k
    rw [ih h2, getVal_setKey_ne _ _ _ _ (Ne.symm h1)]

theorem mem_keys_setKey (d : List (String × Val)) (k a : String) (v : Val)
    (h : a ∈ (setKey d k v).map Prod.fst) : a ∈ d.map Prod.fst ∨ a = k := by
  induction d with
  | nil => simpa [setKey] using h
  | cons kv rest ih =>
    obtain ⟨k0, v0⟩ := kv
    by_cases h0 : k0 = k
    · rw [setKey, if_pos h0] at h
      simp only [List.map_cons, List.mem_cons] at h
      rcases h with h | h
      · exact Or.inr h
      · exact Or.inl (List.mem_cons_of_mem _ h)
    · rw [setKey, if_neg h0] at h
      simp only [List.map_cons, List.mem_cons] at h
      rcases h with h | h
      · exact Or.inl (by simp only [List.map_cons, List.mem_cons]; exact Or.inl h)
      · rcases ih h with h' | h'
        · exact Or.inl (List.mem_cons_of_mem _ h')
        · exact Or.inr h'

theorem keys_nodup_setKey (d : List (String × Val)) (k : String) (v : Val)
    (h : (d.map Prod.fst).Nodup) : ((setKey d k v).map Prod.fst).Nodup := by
  induction d with
  | nil => simp [setKey]
  | cons kv rest ih =>
    obtain ⟨k0, v0⟩ := kv
    simp only [List.map_cons, List.nodup_cons] at h
    by_cases h0 : k0 = k
    · subst h0
      simpa [setKey, List.nodup_cons] using h
    · simp only [setKey, if_neg h0, List.map_cons, List.nodup_cons]
      refine ⟨fun hmem => ?_, ih h.2⟩
      rcases mem_keys_setKey _ _ _ _ hmem with h' | h'
      · exact h.1 h'
      · exact h0 h'

/-! ### Loop lemmas -/

theorem attemptStep_success (u : Val) (transport : Nat → TransportResult)
    (st : Senderable.LoopState) (a status : Nat) (body : String)
    (ht : transport a = TransportResult.response status body)
    (h1 : 200 ≤ status) (h2 : status < 300) :
    Senderable.attemptStep (.ok u) transport st a =
      (⟨⟨true, some a, some status, some body⟩, st.error, st.sleeps,
        st.posts ++ [a]⟩, true) := by
  simp [Senderable.attemptStep, ht, h1, h2]

theorem attemptStep_fail (u : Val) (transport : Nat → TransportResult)
    (st : Senderable.LoopState) (a : Nat)
    (hf : failsAt transport a = true) :
    ∃ md' : Senderable.Metadata,
      Senderable.attemptStep (.ok u) transport st a =
        (⟨md', some (failMsg transport a), st.sleeps, st.posts ++ [a]⟩,
         false) ∧
      md'.success = st.md.success ∧ md'.attempt = some a := by
  unfold failsAt at hf
  cases ht : transport a with
  | raise m =>
    refine ⟨⟨st.md.success, some a, st.md.status_code,
      some (Senderable.synthFailureBody (Senderable.replaceQuotes m))⟩, ?_, rfl, rfl⟩
    simp [Senderable.attemptStep, failMsg, ht]
  | response status body =>
    rw [ht] at hf
    have hc : ¬ (200 ≤ status ∧ status < 300) := by
      simp only [decide_eq_true_eq] at hf
      omega
    refine ⟨⟨st.md.success, some a, some status, st.md.response⟩, ?_, rfl, rfl⟩
    simp [Senderable.attemptStep, failMsg, ht, hc]

theorem runLoop_fail_step_mid (u : Val) (transport : Nat → TransportResult)
    (lastAttempt i m : Nat) (st : Senderable.LoopState)
    (hf : failsAt transport (i + 1) = true) (hl : i + 1 ≠ lastAttempt) :
    ∃ md' : Senderable.Metadata,
      Senderable.runLoop (.ok u) transport lastAttempt i (m + 1) st =
        Senderable.runLoop (.ok u) transport lastAttempt (i + 1) m
          ⟨md', some (failMsg transport (i + 1)), st.sleeps ++ [i],
           st.posts ++ [i + 1]⟩ ∧
      md'.success = st.md.success ∧ md'.attempt = some (i + 1) := by
  obtain ⟨md', hstep, hsucc, hatt⟩ := attemptStep_fail u transport st (i + 1) hf
  exact ⟨md', by simp [Senderable.runLoop, hstep, hl], hsucc, hatt⟩

theorem runLoop_fail_step_last (u : Val) (transport : Nat → TransportResult)
    (lastAttempt i m : Nat) (st : Senderable.LoopState)
    (hf : failsAt transport (i + 1) = true) (hl : i + 1 = lastAttempt) :
    ∃ md' : Senderable.Metadata,
      Senderable.runLoop (.ok u) transport lastAttempt i (m + 1) st =
        Senderable.runLoop (.ok u) transport lastAttempt (i + 1) m
          ⟨md', some (failMsg transport (i + 1)), st.sleeps,
           st.posts ++ [i + 1]⟩ ∧
      md'.success = st.md.success ∧ md'.attempt = some (i + 1) := by
  obtain ⟨md', hstep, hsucc, hatt⟩ := attemptStep_fail u transport st (i + 1) hf
  refine ⟨md', ?_, hsucc, hatt⟩
  simp only [Senderable.runLoop, hstep]
  simp only [Bool.false_eq_true, if_false]
  rw [if_pos hl]

theorem runLoop_success_run (u : Val) (transport : Nat → TransportResult)
    (lastAttempt status : Nat) (body : String) :
    ∀ (t i m : Nat) (st : Senderable.LoopState),
      (∀ j, j < t → failsAt transport (i + j + 1) = true) →
      (∀ j, j < t → i + j + 1 ≠ lastAttempt) →
      transport (i + t + 1) = TransportResult.response status body →
      200 ≤ status → status < 300 → t < m →
      (Senderable.runLoop (.ok u) transport lastAttempt i m st).md =
          ⟨true, some (i + t + 1), some status, some body⟩ ∧
      (Senderable.runLoop (.ok u) transport lastAttempt i m st).sleeps =
          st.sleeps ++ List.range' i t ∧
      (Senderable.runLoop (.ok u) transport lastAttempt i m st).posts =
          st.posts ++ List.range' (i + 1) (t + 1) := by
  intro t
  induction t with
  | zero =>
    intro i m st _ _ ht h1 h2 hm
    obtain ⟨m, rfl⟩ : ∃ m', m = m' + 1 := ⟨m - 1, by omega⟩
    rw [show i + 0 + 1 = i + 1 by omega] at ht
    have hstep := attemptStep_success u transport st (i + 1) status body ht h1 h2
    simp [Senderable.runLoop, hstep, List.range']
  | succ t ih =>
    intro i m st hf hl ht h1 h2 hm
    obtain ⟨m, rfl⟩ : ∃ m', m = m' + 1 := ⟨m - 1, by omega⟩
    obtain ⟨md', hstep, -, -⟩ :=
      runLoop_fail_step_mid u transport lastAttempt i m st
        (by have := hf 0 (by omega); rwa [Nat.add_zero] at this)
        (by have := hl 0 (by omega); rwa [Nat.add_zero] at this)
    rw [hstep]
    have hf' : ∀ j, j < t → failsAt transport (i + 1 + j + 1) = true := by
      intro j hj
      have := hf (j + 1) (by omega)
      rwa [show i + (j + 1) + 1 = i + 1 + j + 1 by omega] at this
    have hl' : ∀ j, j < t → i + 1 + j + 1 ≠ lastAttempt := by
      intro j hj
      have := hl (j + 1) (by omega)
      rwa [show i + (j + 1) + 1 = i + 1 + j + 1 by omega] at this
    have ht' : transport (i + 1 + t + 1) = TransportResult.response status body := by
      rwa [show i + 1 + t + 1 = i + (t + 1) + 1 by omega]
    obtain ⟨hmd, hsl, hpo⟩ := ih (i + 1) m
      ⟨md', some (failMsg transport (i + 1)), st.sleeps ++ [i],
       st.posts ++ [i + 1]⟩ hf' hl' ht' h1 h2 (by omega)
    refine ⟨?_, ?_, ?_⟩
    · rw [hmd, show i + 1 + t + 1 = i + (t + 1) + 1 by omega]
    · rw [hsl, List.append_assoc, List.singleton_append, ← List.range'_succ]
    · rw [hpo, List.append_assoc, List.singleton_append, ← List.range'_succ]

theorem runLoop_fail_run (u : Val) (transport : Nat → TransportResult)
    (lastAttempt : Nat) :
    ∀ (m i : Nat) (st : Senderable.LoopState),
      0 < m →
      (∀ j, j < m → failsAt transport (i + j + 1) = true) →
      (Senderable.runLoop (.ok u) transport lastAttempt i m st).md.success =
          st.md.success ∧
      (Senderable.runLoop (.ok u) transport lastAttempt i m st).md.attempt =
          some (i + m) ∧
      (Senderable.runLoop (.ok u) transport lastAttempt i m st).error =
          some (failMsg transport (i + m)) ∧
      (Senderable.runLoop (.ok u) transport lastAttempt i m st).posts =
          st.posts ++ List.range' (i + 1) m := by
  intro m
  induction m with
  | zero => intro i st h; omega
  | succ m ih =>
    intro i st _ hf
    have hf0 : failsAt transport (i + 1) = true := by
      have := hf 0 (by omega)
      rwa [Nat.add_zero] at this
    rcases Nat.eq_zero_or_pos m with hm | hm
    · subst hm
      by_cases hl : i + 1 = lastAttempt
      · obtain ⟨md', hstep, hsucc, hatt⟩ :=
          runLoop_fail_step_last u transport lastAttempt i 0 st hf0 hl
        rw [hstep]
        simp only [Senderable.runLoop]
        exact ⟨hsucc, by rw [hatt], trivial, by simp [List.range']⟩
      · obtain ⟨md', hstep, hsucc, hatt⟩ :=
          runLoop_fail_step_mid u transport lastAttempt i 0 st hf0 hl
        rw [hstep]
        simp only [Senderable.runLoop]
        exact ⟨hsucc, by rw [hatt], trivial, by simp [List.range']⟩
    · have hf' : ∀ j, j < m → failsAt transport (i + 1 + j + 1) = true := by
        intro j hj
        have := hf (j + 1) (by omega)
        rwa [show i + (j + 1) + 1 = i + 1 + j + 1 by omega] at this
      by_cases hl : i + 1 = lastAttempt
      · obtain ⟨md', hstep, hsucc, -⟩ :=
          runLoop_fail_step_last u transport lastAttempt i m st hf0 hl
        rw [hstep]
        obtain ⟨h1, h2, h3, h4⟩ := ih (i + 1)
          ⟨md', some (failMsg transport (i + 1)), st.sleeps,
           st.posts ++ [i + 1]⟩ hm hf'
        refine ⟨by rw [h1, hsucc], ?_, ?_, ?_⟩
        · rw [h2, show i + 1 + m = i + (m + 1) by omega]
        · rw [h3, show i + 1 + m = i + (m + 1) by omega]
        · rw [h4, List.append_assoc, List.singleton_append, ← List.range'_succ]
      · obtain ⟨md', hstep, hsucc, -⟩ :=
          runLoop_fail_step_mid u transport lastAttempt i m st hf0 hl
        rw [hstep]
        obtain ⟨h1, h2, h3, h4⟩ := ih (i + 1)
          ⟨md', some (failMsg transport (i + 1)), st.sleeps ++ [i],
           st.posts ++ [i + 1]⟩ hm hf'
        refine ⟨by rw [h1, hsucc], ?_, ?_, ?_⟩
        · rw [h2, show i + 1 + m = i + (m + 1) by omega]
        · rw [h3, show i + 1 + m = i + (m + 1) by omega]
        · rw [h4, List.append_assoc, List.singleton_append, ← List.range'_succ]

theorem attemptStep_posts_le (urlRes : Except String Val)
    (transport : Nat → TransportResult) (st : Senderable.LoopState) (a : Nat) :
    (Senderable.attemptStep urlRes transport st a).1.posts.length ≤
      st.posts.length + 1 := by
  cases urlRes with
  | error m => simp [Senderable.attemptStep]
  | ok v =>
    cases ht : transport a with
    | raise m => simp [Senderable.attemptStep, ht]
    | response status body =>
      by_cases hc : 200 ≤ status ∧ status < 300 <;>
        simp [Senderable.attemptStep, ht, hc]

theorem runLoop_posts_le (urlRes : Except String Val)
    (transport : Nat → TransportResult) (lastAttempt : Nat) :
    ∀ (m i : Nat) (st : Senderable.LoopState),
      (Senderable.runLoop urlRes transport lastAttempt i m st).posts.length ≤
        st.posts.length + m := by
  intro m
  induction m with
  | zero => intro i st; simp [Senderable.runLoop]
  | succ m ih =>
    intro i st
    have hle := attemptStep_posts_le urlRes transport st (i + 1)
    simp only [Senderable.runLoop]
    by_cases hb : (Senderable.attemptStep urlRes transport st (i + 1)).2 = true
    · rw [if_pos hb]
      omega
    · rw [if_neg hb]
      by_cases hl : i + 1 = lastAttempt
      · rw [if_pos hl]
        have := ih (i + 1) (Senderable.attemptStep urlRes transport st (i + 1)).1
        omega
      · rw [if_neg hl]
        have := ih (i + 1)
          { (Senderable.attemptStep urlRes transport st (i + 1)).1 with
            sleeps := (Senderable.attemptStep urlRes transport st (i + 1)).1.sleeps ++ [i] }
        simp only at this
        omega

theorem getVal_dictUpdate_some (p : List (String × Val)) (k : String) (v : Val)
    (hnd : (p.map Prod.fst).Nodup) (h : getVal p k = some v)
    (d : List (String × Val)) : getVal (dictUpdate d p) k = some v := by
  induction p generalizing d with
  | nil => simp [getVal] at h
  | cons kv p ih =>
    obtain ⟨k0, v0⟩ := kv
    simp only [List.map_cons, List.nodup_cons] at hnd
    show getVal (dictUpdate (setKey d k0 v0) p) k = some v
    by_cases h0 : k0 = k
    · subst h0
      have hv : v0 = v := by simpa [getVal] using h
      have hnone : getVal p k0 = Option.none :=
        getVal_eq_none_of_not_mem _ _ hnd.1
      rw [getVal_dictUpdate_none _ _ hnone, getVal_setKey_self d k0 v0, hv]
    · have h2 : getVal p k = some v := by simpa [getVal, h0] using h
      exact ih hnd.2 h2 _

/-! ### Shape of a completed `_send` and outcome-lookup lemmas -/

theorem _send_ok_shape (caps : Capabilities) (s : Sender)
    (pa pd : List (String × Val))
    (hprep : Senderable.sendPrep caps.serialize caps.encodeParams s = .ok pa)
    (hwrap : Senderable.wrapPayload s.payload = .ok pd) :
    Senderable._send caps s = .ok
      (dictUpdate
        (Senderable.metadataDict
          (Senderable.runLoop (Senderable.get_url s.dkwargs s.kwargs)
            caps.transport (s.attempts.length - 1) 0 (s.attempts.length - 1)
            ⟨Senderable.initMetadata, Option.none, [], []⟩).md
          (Senderable.errorValOf
            (Senderable.runLoop (Senderable.get_url s.dkwargs s.kwargs)
              caps.transport (s.attempts.length - 1) 0
              (s.attempts.length - 1)
              ⟨Senderable.initMetadata, Option.none, [], []⟩).md.success
            (Senderable.runLoop (Senderable.get_url s.dkwargs s.kwargs)
              caps.transport (s.attempts.length - 1) 0
              (s.attempts.length - 1)
              ⟨Senderable.initMetadata, Option.none, [], []⟩).error)
          pa)
        (Senderable.addHash pd s.hash_value),
       (Senderable.runLoop (Senderable.get_url s.dkwargs s.kwargs)
         caps.transport (s.attempts.length - 1) 0 (s.attempts.length - 1)
         ⟨Senderable.initMetadata, Option.none, [], []⟩).sleeps,
       (Senderable.runLoop (Senderable.get_url s.dkwargs s.kwargs)
         caps.transport (s.attempts.length - 1) 0 (s.attempts.length - 1)
         ⟨Senderable.initMetadata, Option.none, [], []⟩).posts) := by
  unfold Senderable._send
  rw [hprep, hwrap]

theorem getVal_metadataDict_success (md : Senderable.Metadata)
    (errorVal : Val) (post : List (String × Val)) :
    getVal (Senderable.metadataDict md errorVal post) "success" =
      some (Val.bool md.success) := by
  simp [Senderable.metadataDict, getVal]

theorem getVal_metadataDict_attempt (md : Senderable.Metadata)
    (errorVal : Val) (post : List (String × Val)) (a : Nat)
    (h : md.attempt = some a) :
    getVal (Senderable.metadataDict md errorVal post) "attempt" =
      some (Val.nat a) := by
  simp [Senderable.metadataDict, getVal, h]

theorem getVal_metadataDict_error (md : Senderable.Metadata)
    (errorVal : Val) (post : List (String × Val)) :
    getVal (Senderable.metadataDict md errorVal post) "error" =
      some errorVal := by
  obtain ⟨su, oa, oc, or'⟩ := md
  cases oa <;> cases oc <;> cases or' <;> simp [Senderable.metadataDict, getVal]

theorem getVal_addHash_ne (pd : List (String × Val))
    (hash_value : Option String) (k : String) (hk : k ≠ "hash") :
    getVal (Senderable.addHash pd hash_value) k = getVal pd k := by
  cases hash_value with
  | none => rfl
  | some h =>
    show getVal (if h.length > 0 then setKey pd "hash" (Val.str h) else pd) k =
      getVal pd k
    by_cases hl : h.length > 0
    · rw [if_pos hl, getVal_setKey_ne _ _ _ _ hk]
    · rw [if_neg hl]

theorem keys_nodup_addHash (pd : List (String × Val))
    (hash_value : Option String) (h : (pd.map Prod.fst).Nodup) :
    ((Senderable.addHash pd hash_value).map Prod.fst).Nodup := by
  cases hash_value with
  | none => exact h
  | some hv =>
    show ((if hv.length > 0 then setKey pd "hash" (Val.str hv) else pd).map
      Prod.fst).Nodup
    by_cases hl : hv.length > 0
    · rw [if_pos hl]
      exact keys_nodup_setKey _ _ _ h
    · rwa [if_neg hl]

/-! ### Claim theorems -/

/-- C1: the claim says the loop sleeps for the schedule's wait value after a
failed attempt — in particular one sleep of duration 1 for schedule
`[0,1,0]` with attempt 1 failing and attempt 2 succeeding.  The code
iterates `enumerate(range(len(attempts) - 1))`, so the slept duration is the
loop index `i` and the schedule's stored values are never read: the run
sleeps exactly once for duration 0, and replacing the schedule `[0,1,0]` by
`[7,9,11]` changes nothing in the outcome or the sleeps. -/
theorem claim_C1_sleeps_ignore_schedule :
    Senderable._send
      ⟨fun a => if a = 1 then TransportResult.response 500 "err"
        else TransportResult.response 200 "OK",
       fun _ => "SER", fun _ => "ENC"⟩
      ⟨[("url", Val.str "http://example"),
        ("encoding", Val.str EncodingType.JSON)],
       [], Option.none, [0, 1, 0], Val.dict [("x", Val.nat 1)]⟩ =
      .ok ([("success", Val.bool true), ("attempt", Val.nat 2),
            ("status_code", Val.nat 200), ("response", Val.str "OK"),
            ("error", Val.none),
            ("post_attributes", Val.dict
              [("timeout", Val.nat 5),
               ("headers", Val.dict
                 [("Content-Type", Val.str "application/json")]),
               ("data", Val.str "SER")]),
            ("x", Val.nat 1)],
           [0], [1, 2]) ∧
    Senderable._send
      ⟨fun a => if a = 1 then TransportResult.response 500 "err"
        else TransportResult.response 200 "OK",
       fun _ => "SER", fun _ => "ENC"⟩
      ⟨[("url", Val.str "http://example"),
        ("encoding", Val.str EncodingType.JSON)],
       [], Option.none, [7, 9, 11], Val.dict [("x", Val.nat 1)]⟩ =
      .ok ([("success", Val.bool true), ("attempt", Val.nat 2),
            ("status_code", Val.nat 200), ("response", Val.str "OK"),
            ("error", Val.none),
            ("post_attributes", Val.dict
              [("timeout", Val.nat 5),
               ("headers", Val.dict
                 [("Content-Type", Val.str "application/json")]),
               ("data", Val.str "SER")]),
            ("x", Val.nat 1)],
           [0], [1, 2]) := by
  exact ⟨rfl, rfl⟩

set_option maxRecDepth 8192 in
/-- C2: the claim (and the spec) describe `create_signature(body, secret)`
as `"sha256=" + hex(HMAC-SHA256(secret, body))`.  The code calls
`SHA256.new(secret); hmac.update(payload)`, i.e. a plain SHA-256 over the
concatenation `secret ++ body` — not an HMAC, despite the variable's name.
At body `{"a":1}` and secret `secret` the two digests differ (the plain
digest matches `sha256sum`, the spec's digest matches `openssl -hmac`). -/
theorem claim_C2_signature_is_not_hmac :
    Senderable.create_signature (fun _ => "") (Val.str "\x7b\"a\":1\x7d")
        "secret" =
      "sha256=37bd34e4b292ef9df8bfe70e3f50526139249490c3c2594cf20175ba7665e01d" ∧
    Senderable.create_signature (fun _ => "") (Val.str "\x7b\"a\":1\x7d")
        "secret" =
      "sha256=" ++ SHA256.hexdigest (SHA256.sha256
        (SHA256.utf8Bytes ("secret" ++ "\x7b\"a\":1\x7d"))) ∧
    SHA256.hexdigest (hmac_sha256 (SHA256.utf8Bytes "secret")
        (SHA256.utf8Bytes "\x7b\"a\":1\x7d")) =
      "aa9e2e3575f5d7098b6caccd790888c36d5fdb63342a73bada2d6a51747a8494" ∧
    Senderable.create_signature (fun _ => "") (Val.str "\x7b\"a\":1\x7d")
        "secret" ≠
      "sha256=" ++ SHA256.hexdigest (hmac_sha256 (SHA256.utf8Bytes "secret")
        (SHA256.utf8Bytes "\x7b\"a\":1\x7d")) := by
  exact ⟨by decide, by decide, by decide, by decide⟩

/-- C3: the claim says a send with no `url` in either source raises a
configuration error synchronously before any network call and is never
retried.  In the code `self.url` is first resolved inside the attempt loop's
`try` block, so the `TypeError` is caught by `except Exception`, logged as a
failed attempt, and folded into the returned outcome: `_send` returns
normally (no exception) with `success=False` and the configuration message
as the per-attempt `error`, after exhausting the schedule. -/
theorem claim_C3_missing_url_not_fatal :
    Senderable._send
      ⟨fun _ => TransportResult.raise "unused", fun _ => "SER", fun _ => "ENC"⟩
      ⟨[("encoding", Val.str EncodingType.JSON)], [], Option.none, [0, 0],
       Val.dict []⟩ =
      .ok ([("success", Val.bool false), ("attempt", Val.nat 1),
            ("response", Val.str (Senderable.synthFailureBody
              "Sender function needs a url argument")),
            ("error", Val.str "Sender function needs a url argument"),
            ("post_attributes", Val.dict
              [("timeout", Val.nat 5),
               ("headers", Val.dict
                 [("Content-Type", Val.str "application/json")]),
               ("data", Val.str "SER")])],
           [], []) := by
  rfl

/-- C4 counterexample: the claim says resolving the encoding fails with the
invalid-choice error naming the two valid MIME strings *including when the
key is absent from both sources*.  With the key absent, `_value_in` raises
first, with the missing-required-argument message, which is a different
error text that names no choices. -/
theorem claim_C4_absent_encoding_counterexample :
    Senderable.get_encoding [] [] =
      .error "Sender function needs a encoding argument" ∧
    "Sender function needs a encoding argument" ≠
      Senderable.invalidEncodingMsg := by
  exact ⟨rfl, by decide⟩

/-- C4 (amended): when the encoding key resolves to a value different from
both accepted MIME strings, `get_encoding` fails with the invalid-choice
error naming the two valid selections; when the key is absent from both
sources it instead fails with the missing-required-setting error. -/
theorem claim_C4_amended (dkwargs kwargs : List (String × Val)) :
    (∀ v, _value_in "encoding" true dkwargs kwargs = .ok v →
      (∀ str, v = Val.str str →
        str ≠ EncodingType.JSON ∧ str ≠ EncodingType.FORMS) →
      Senderable.get_encoding dkwargs kwargs =
        .error Senderable.invalidEncodingMsg) ∧
    (getVal kwargs "encoding" = Option.none →
      getVal dkwargs "encoding" = Option.none →
      Senderable.get_encoding dkwargs kwargs =
        .error "Sender function needs a encoding argument") := by
  constructor
  · intro v hv hne
    unfold Senderable.get_encoding
    rw [hv]
    cases v with
    | str s =>
      obtain ⟨h1, h2⟩ := hne s rfl
      simp [h1, h2]
    | nat n => rfl
    | bool b => rfl
    | none => rfl
    | dict d => rfl
  · intro h1 h2
    unfold Senderable.get_encoding _value_in
    rw [h1, h2]
    rfl

/-- C4 witness: a present non-MIME value yields the invalid-choice error; an
absent key yields the missing-argument error. -/
theorem claim_C4_amended_witness :
    _value_in "encoding" true [] [("encoding", Val.str "text/plain")] =
      .ok (Val.str "text/plain") ∧
    Senderable.get_encoding [] [("encoding", Val.str "text/plain")] =
      .error Senderable.invalidEncodingMsg ∧
    Senderable.get_encoding [] [] =
      .error "Sender function needs a encoding argument" := by
  refine ⟨rfl, ?_, ?_⟩
  · exact (claim_C4_amended [] [("encoding", Val.str "text/plain")]).1
      (Val.str "text/plain") rfl
      (fun str h => by
        injection h with h'
        subst h'
        exact ⟨by decide, by decide⟩)
  · exact (claim_C4_amended [] []).2 rfl rfl

/-- C9: `get_timeout` is `_value_in('timeout', False, ...) or
_default_timeout()`, so every falsy supplied timeout value — not only an
absent key — resolves to the default 5; in particular an explicit timeout of
0 cannot be configured. -/
theorem claim_C9_falsy_timeout_default (dkwargs kwargs : List (String × Val))
    (v : Val) (h : _value_in "timeout" false dkwargs kwargs = .ok v)
    (hv : truthy v = false) :
    Senderable.get_timeout dkwargs kwargs = Val.nat 5 := by
  unfold Senderable.get_timeout
  rw [h]
  simp [hv, Senderable._default_timeout]

/-- C9 witness: an explicit `timeout=0` resolves to 5. -/
theorem claim_C9_witness :
    _value_in "timeout" false [] [("timeout", Val.nat 0)] =
      .ok (Val.nat 0) ∧
    truthy (Val.nat 0) = false ∧
    Senderable.get_timeout [] [("timeout", Val.nat 0)] = Val.nat 5 :=
  ⟨rfl, rfl, claim_C9_falsy_timeout_default [] [("timeout", Val.nat 0)]
    (Val.nat 0) rfl rfl⟩

/-- C5: for a schedule of length `N` the loop performs at most `N-1` POSTs;
when attempts `1..k-1` fail and attempt `k` (1 ≤ k ≤ N-1) returns a status
in `[200,300)`, the loop stops at once with `success=true`, `attempt=k`,
that status code and the response text, having POSTed exactly at attempts
`1..k` and slept exactly `k-1` times; for any transport at all, at most
`N-1` POSTs are ever performed. -/
theorem claim_C5_success_stops_loop (u : Val)
    (transport : Nat → TransportResult) (N k status : Nat) (body : String)
    (hk1 : 1 ≤ k) (hkN : k ≤ N - 1)
    (hfail : ∀ j, j < k → 1 ≤ j → failsAt transport j = true)
    (hresp : transport k = TransportResult.response status body)
    (h200 : 200 ≤ status) (h300 : status < 300) :
    (Senderable.runLoop (.ok u) transport (N - 1) 0 (N - 1)
        ⟨Senderable.initMetadata, Option.none, [], []⟩).md =
      ⟨true, some k, some status, some body⟩ ∧
    (Senderable.runLoop (.ok u) transport (N - 1) 0 (N - 1)
        ⟨Senderable.initMetadata, Option.none, [], []⟩).posts =
      List.range' 1 k ∧
    (Senderable.runLoop (.ok u) transport (N - 1) 0 (N - 1)
        ⟨Senderable.initMetadata, Option.none, [], []⟩).sleeps.length =
      k - 1 ∧
    (∀ transport' : Nat → TransportResult,
      (Senderable.runLoop (.ok u) transport' (N - 1) 0 (N - 1)
          ⟨Senderable.initMetadata, Option.none, [], []⟩).posts.length ≤
        N - 1) := by
  have hrun := runLoop_success_run u transport (N - 1) status body (k - 1) 0
    (N - 1) ⟨Senderable.initMetadata, Option.none, [], []⟩
    (fun j hj => by
      have := hfail (j + 1) (by omega) (by omega)
      rwa [show j + 1 = 0 + j + 1 by omega] at this)
    (fun j hj => by omega)
    (by rwa [show 0 + (k - 1) + 1 = k by omega])
    h200 h300 (by omega)
  obtain ⟨hmd, hsl, hpo⟩ := hrun
  refine ⟨?_, ?_, ?_, ?_⟩
  · rw [hmd, show 0 + (k - 1) + 1 = k by omega]
  · rw [hpo, show k - 1 + 1 = k by omega]
    simp
  · rw [hsl]
    simp [List.length_range']
  · intro transport'
    have := runLoop_posts_le (.ok u) transport' (N - 1) (N - 1) 0
      ⟨Senderable.initMetadata, Option.none, [], []⟩
    simpa using this

/-- C5 witness: schedule length 4, attempt 1 fails with status 500, attempt
2 succeeds with status 204: the loop stops at attempt 2 after two POSTs and
one sleep. -/
theorem claim_C5_witness :
    (1 : Nat) ≤ 2 ∧ (2 : Nat) ≤ 4 - 1 ∧
    (∀ j, j < 2 → 1 ≤ j →
      failsAt (fun a => if a = 2 then TransportResult.response 204 "done"
        else TransportResult.response 500 "bad") j = true) ∧
    (fun a => if a = 2 then TransportResult.response 204 "done"
      else TransportResult.response 500 "bad") 2 =
        TransportResult.response 204 "done" ∧
    (Senderable.runLoop (.ok (Val.str "u"))
        (fun a => if a = 2 then TransportResult.response 204 "done"
          else TransportResult.response 500 "bad") (4 - 1) 0 (4 - 1)
        ⟨Senderable.initMetadata, Option.none, [], []⟩).md =
      ⟨true, some 2, some 204, some "done"⟩ :=
  ⟨by decide, by decide, by decide, rfl,
   (claim_C5_success_stops_loop (Val.str "u")
     (fun a => if a = 2 then TransportResult.response 204 "done"
       else TransportResult.response 500 "bad") 4 2 204 "done"
     (by decide) (by decide) (by decide) rfl (by decide) (by decide)).1⟩

/-- C7: a payload that is already a string is passed through unchanged by
`format_payload` under JSON encoding (no re-serialization), and the final
outcome mapping binds the key `"payload"` to that same string. -/
theorem claim_C7_string_payload_passthrough (caps : Capabilities)
    (s : Sender) (p : String) (pa : List (String × Val))
    (hpay : s.payload = Val.str p)
    (henc : Senderable.get_encoding s.dkwargs s.kwargs =
      .ok EncodingType.JSON)
    (hprep : Senderable.sendPrep caps.serialize caps.encodeParams s =
      .ok pa) :
    Senderable.format_payload caps.serialize s.dkwargs s.kwargs s.payload =
      .ok (Val.str p) ∧
    ∃ out rest, Senderable._send caps s = .ok (out, rest) ∧
      getVal out "payload" = some (Val.str p) := by
  have hwrap : Senderable.wrapPayload s.payload =
      .ok [("payload", Val.str p)] := by
    rw [hpay]
    rfl
  have hsend := _send_ok_shape caps s pa [("payload", Val.str p)] hprep hwrap
  constructor
  · rw [hpay]
    simp [Senderable.format_payload, henc, Senderable.jsonify_payload]
  · refine ⟨_, _, hsend, ?_⟩
    apply getVal_dictUpdate_some
    · exact keys_nodup_addHash _ _ (by simp)
    · rw [getVal_addHash_ne _ _ _ (by decide)]
      rfl

/-- C7 witness: payload `"raw"` with JSON encoding passes through and the
outcome maps `"payload"` to `"raw"`. -/
theorem claim_C7_witness :
    (⟨[("url", Val.str "u"), ("encoding", Val.str EncodingType.JSON)],
      [], Option.none, [0, 0], Val.str "raw"⟩ : Sender).payload =
      Val.str "raw" ∧
    Senderable.get_encoding
      [("url", Val.str "u"), ("encoding", Val.str EncodingType.JSON)] [] =
      .ok EncodingType.JSON ∧
    Senderable.sendPrep (fun _ => "SER") (fun _ => "ENC")
      ⟨[("url", Val.str "u"), ("encoding", Val.str EncodingType.JSON)],
       [], Option.none, [0, 0], Val.str "raw"⟩ =
      .ok [("timeout", Val.nat 5),
           ("headers", Val.dict
             [("Content-Type", Val.str "application/json")]),
           ("data", Val.str "raw")] ∧
    (Senderable.format_payload (fun _ => "SER")
        [("url", Val.str "u"), ("encoding", Val.str EncodingType.JSON)] []
        (Val.str "raw") = .ok (Val.str "raw") ∧
     ∃ out rest,
       Senderable._send
         ⟨fun _ => TransportResult.raise "down", fun _ => "SER",
          fun _ => "ENC"⟩
         ⟨[("url", Val.str "u"), ("encoding", Val.str EncodingType.JSON)],
          [], Option.none, [0, 0], Val.str "raw"⟩ = .ok (out, rest) ∧
       getVal out "payload" = some (Val.str "raw")) :=
  ⟨rfl, rfl, rfl,
   claim_C7_string_payload_passthrough
     ⟨fun _ => TransportResult.raise "down", fun _ => "SER", fun _ => "ENC"⟩
     ⟨[("url", Val.str "u"), ("encoding", Val.str EncodingType.JSON)],
      [], Option.none, [0, 0], Val.str "raw"⟩ "raw"
     [("timeout", Val.nat 5),
      ("headers", Val.dict [("Content-Type", Val.str "application/json")]),
      ("data", Val.str "raw")] rfl rfl rfl⟩

/-- C8: the original payload's bindings are merged into the outcome last,
so any key present in the payload ends with the payload's value even when
the delivery metadata defined it too; and a non-empty hash value appears in
the outcome under `"hash"`. -/
theorem claim_C8_payload_merge_last (caps : Capabilities) (s : Sender)
    (d pa : List (String × Val)) (h : String)
    (hprep : Senderable.sendPrep caps.serialize caps.encodeParams s =
      .ok pa)
    (hpay : s.payload = Val.dict d)
    (hnd : (d.map Prod.fst).Nodup)
    (hhash : s.hash_value = some h) (hlen : 0 < h.length) :
    ∃ out rest, Senderable._send caps s = .ok (out, rest) ∧
      (∀ k v, k ≠ "hash" → getVal d k = some v → getVal out k = some v) ∧
      getVal out "hash" = some (Val.str h) := by
  have hwrap : Senderable.wrapPayload s.payload = .ok d := by
    rw [hpay]
    rfl
  have hsend := _send_ok_shape caps s pa d hprep hwrap
  rw [hhash] at hsend
  have haddh : Senderable.addHash d (some h) = setKey d "hash" (Val.str h) := by
    show (if h.length > 0 then setKey d "hash" (Val.str h) else d) = _
    rw [if_pos hlen]
  rw [haddh] at hsend
  refine ⟨_, _, hsend, ?_, ?_⟩
  · intro k v hk hkv
    apply getVal_dictUpdate_some
    · exact keys_nodup_setKey _ _ _ hnd
    · rw [getVal_setKey_ne _ _ _ _ hk]
      exact hkv
  · apply getVal_dictUpdate_some
    · exact keys_nodup_setKey _ _ _ hnd
    · exact getVal_setKey_self _ _ _

/-- C8 witness: payload `{"success": 41, "x": 1}` and hash `"abc123"`: the
outcome keeps the payload's value for the colliding key `"success"` and
contains `hash: "abc123"`. -/
theorem claim_C8_witness :
    Senderable.sendPrep (fun _ => "SER") (fun _ => "ENC")
      ⟨[("url", Val.str "u"), ("encoding", Val.str EncodingType.JSON)],
       [], some "abc123", [0, 0],
       Val.dict [("success", Val.nat 41), ("x", Val.nat 1)]⟩ =
      .ok [("timeout", Val.nat 5),
           ("headers", Val.dict
             [("Content-Type", Val.str "application/json")]),
           ("data", Val.str "SER")] ∧
    (([("success", Val.nat 41), ("x", Val.nat 1)].map
        (Prod.fst (α := String) (β := Val))).Nodup) ∧
    (0 : Nat) < "abc123".length ∧
    (∃ out rest,
      Senderable._send
        ⟨fun _ => TransportResult.raise "down", fun _ => "SER",
         fun _ => "ENC"⟩
        ⟨[("url", Val.str "u"), ("encoding", Val.str EncodingType.JSON)],
         [], some "abc123", [0, 0],
         Val.dict [("success", Val.nat 41), ("x", Val.nat 1)]⟩ =
        .ok (out, rest) ∧
      (∀ k v, k ≠ "hash" →
        getVal [("success", Val.nat 41), ("x", Val.nat 1)] k = some v →
        getVal out k = some v) ∧
      getVal out "hash" = some (Val.str "abc123")) :=
  ⟨rfl, by decide, by decide,
   claim_C8_payload_merge_last
     ⟨fun _ => TransportResult.raise "down", fun _ => "SER", fun _ => "ENC"⟩
     ⟨[("url", Val.str "u"), ("encoding", Val.str EncodingType.JSON)],
      [], some "abc123", [0, 0],
      Val.dict [("success", Val.nat 41), ("x", Val.nat 1)]⟩
     [("success", Val.nat 41), ("x", Val.nat 1)]
     [("timeout", Val.nat 5),
      ("headers", Val.dict [("Content-Type", Val.str "application/json")]),
      ("data", Val.str "SER")] "abc123" rfl rfl (by decide) rfl (by decide)⟩

/-- C10: with a schedule of length exactly 1 the loop body never runs: no
POST, no sleep; the outcome has `success=false`, `error` bound to `None`,
the keys `attempt`, `status_code` and `response` entirely absent, and
`post_attributes` still present. -/
theorem claim_C10_single_entry_schedule (caps : Capabilities) (s : Sender)
    (pa d : List (String × Val)) (w : Nat)
    (hatt : s.attempts = [w])
    (hprep : Senderable.sendPrep caps.serialize caps.encodeParams s =
      .ok pa)
    (hpay : s.payload = Val.dict d)
    (hd1 : getVal d "success" = Option.none)
    (hd2 : getVal d "attempt" = Option.none)
    (hd3 : getVal d "status_code" = Option.none)
    (hd4 : getVal d "response" = Option.none)
    (hd5 : getVal d "error" = Option.none)
    (hd6 : getVal d "post_attributes" = Option.none) :
    ∃ out, Senderable._send caps s = .ok (out, [], []) ∧
      getVal out "success" = some (Val.bool false) ∧
      getVal out "error" = some Val.none ∧
      getVal out "attempt" = Option.none ∧
      getVal out "status_code" = Option.none ∧
      getVal out "response" = Option.none ∧
      getVal out "post_attributes" = some (Val.dict pa) := by
  have hwrap : Senderable.wrapPayload s.payload = .ok d := by
    rw [hpay]
    rfl
  have hsend := _send_ok_shape caps s pa d hprep hwrap
  rw [hatt] at hsend
  have hsend2 : Senderable._send caps s = .ok
      (dictUpdate [("success", Val.bool false), ("error", Val.none),
        ("post_attributes", Val.dict pa)]
        (Senderable.addHash d s.hash_value), [], []) := by
    rw [hsend]
    rfl
  refine ⟨_, hsend2, ?_, ?_, ?_, ?_, ?_, ?_⟩
  · rw [getVal_dictUpdate_none _ _
      (by rw [getVal_addHash_ne _ _ _ (by decide), hd1])]
    rfl
  · rw [getVal_dictUpdate_none _ _
      (by rw [getVal_addHash_ne _ _ _ (by decide), hd5])]
    rfl
  · rw [getVal_dictUpdate_none _ _
      (by rw [getVal_addHash_ne _ _ _ (by decide), hd2])]
    rfl
  · rw [getVal_dictUpdate_none _ _
      (by rw [getVal_addHash_ne _ _ _ (by decide), hd3])]
    rfl
  · rw [getVal_dictUpdate_none _ _
      (by rw [getVal_addHash_ne _ _ _ (by decide), hd4])]
    rfl
  · rw [getVal_dictUpdate_none _ _
      (by rw [getVal_addHash_ne _ _ _ (by decide), hd6])]
    rfl

/-- C10 witness: schedule `[3]` with a transport that would always succeed:
no POST and no sleep happen, the outcome carries `success=false`,
`error=None`, no `attempt`/`status_code`/`response` keys, and the
`post_attributes`. -/
theorem claim_C10_witness :
    (⟨[("url", Val.str "u"), ("encoding", Val.str EncodingType.JSON)],
      [], Option.none, [3], Val.dict [("x", Val.nat 1)]⟩ : Sender).attempts =
      [3] ∧
    Senderable.sendPrep (fun _ => "SER") (fun _ => "ENC")
      ⟨[("url", Val.str "u"), ("encoding", Val.str EncodingType.JSON)],
       [], Option.none, [3], Val.dict [("x", Val.nat 1)]⟩ =
      .ok [("timeout", Val.nat 5),
           ("headers", Val.dict
             [("Content-Type", Val.str "application/json")]),
           ("data", Val.str "SER")] ∧
    (∃ out,
      Senderable._send
        ⟨fun _ => TransportResult.response 200 "OK", fun _ => "SER",
         fun _ => "ENC"⟩
        ⟨[("url", Val.str "u"), ("encoding", Val.str EncodingType.JSON)],
         [], Option.none, [3], Val.dict [("x", Val.nat 1)]⟩ =
        .ok (out, [], []) ∧
      getVal out "success" = some (Val.bool false) ∧
      getVal out "error" = some Val.none ∧
      getVal out "attempt" = Option.none ∧
      getVal out "status_code" = Option.none ∧
      getVal out "response" = Option.none ∧
      getVal out "post_attributes" = some (Val.dict
        [("timeout", Val.nat 5),
         ("headers", Val.dict
           [("Content-Type", Val.str "application/json")]),
         ("data", Val.str "SER")])) :=
  ⟨rfl, rfl,
   claim_C10_single_entry_schedule
     ⟨fun _ => TransportResult.response 200 "OK", fun _ => "SER",
      fun _ => "ENC"⟩
     ⟨[("url", Val.str "u"), ("encoding", Val.str EncodingType.JSON)],
      [], Option.none, [3], Val.dict [("x", Val.nat 1)]⟩
     [("timeout", Val.nat 5),
      ("headers", Val.dict [("Content-Type", Val.str "application/json")]),
      ("data", Val.str "SER")]
     [("x", Val.nat 1)] 3 rfl rfl rfl rfl rfl rfl rfl rfl rfl⟩

/-- C6 counterexample: the claim says the exhausted outcome's `error`
equals the last failure's message.  With a transport exception whose text
is empty (`str(ex) = ""`), the last failure's message is `""`, but line 185
(`None if sending_metadata['success'] or not self.error else self.error`)
sees the falsy `""` and binds `error` to `None` instead — so the claim as
stated fails at this input. -/
theorem claim_C6_counterexample :
    Senderable._send
      ⟨fun _ => TransportResult.raise "", fun _ => "SER", fun _ => "ENC"⟩
      ⟨[("url", Val.str "u"), ("encoding", Val.str EncodingType.JSON)],
       [], Option.none, [0, 0, 0], Val.dict [("x", Val.nat 1)]⟩ =
      .ok ([("success", Val.bool false), ("attempt", Val.nat 2),
            ("response", Val.str (Senderable.synthFailureBody "")),
            ("error", Val.none),
            ("post_attributes", Val.dict
              [("timeout", Val.nat 5),
               ("headers", Val.dict
                 [("Content-Type", Val.str "application/json")]),
               ("data", Val.str "SER")]),
            ("x", Val.nat 1)],
           [0], [1, 2]) ∧
    failMsg (fun _ => TransportResult.raise "") 2 = "" ∧
    Val.none ≠ Val.str (failMsg (fun _ => TransportResult.raise "") 2) := by
  refine ⟨rfl, rfl, by simp⟩

/-- C6 (amended): when every one of the `N-1` attempts fails, `_send`
returns normally (failures never propagate as exceptions) with
`success=false`, `attempt=N-1`, and `error` equal to the last failure's
message — the formatted status-code text or the exception text with double
quotes replaced by single quotes — when that message is non-empty; when the
last failure's message is the empty string, the outcome's `error` is `None`
instead. -/
theorem claim_C6_exhaustion_outcome (caps : Capabilities) (s : Sender)
    (pa d : List (String × Val)) (u : Val)
    (hprep : Senderable.sendPrep caps.serialize caps.encodeParams s =
      .ok pa)
    (hurl : Senderable.get_url s.dkwargs s.kwargs = .ok u)
    (hN : 2 ≤ s.attempts.length)
    (hfail : ∀ j, j ≤ s.attempts.length - 1 → 1 ≤ j →
      failsAt caps.transport j = true)
    (hpay : s.payload = Val.dict d)
    (hd1 : getVal d "success" = Option.none)
    (hd2 : getVal d "attempt" = Option.none)
    (hd3 : getVal d "error" = Option.none) :
    ∃ out rest, Senderable._send caps s = .ok (out, rest) ∧
      getVal out "success" = some (Val.bool false) ∧
      getVal out "attempt" = some (Val.nat (s.attempts.length - 1)) ∧
      getVal out "error" =
        some (if failMsg caps.transport (s.attempts.length - 1) = ""
              then Val.none
              else Val.str (failMsg caps.transport
                (s.attempts.length - 1))) := by
  have hwrap : Senderable.wrapPayload s.payload = .ok d := by
    rw [hpay]
    rfl
  have hsend := _send_ok_shape caps s pa d hprep hwrap
  rw [hurl] at hsend
  have hn1 : 0 < s.attempts.length - 1 := by omega
  obtain ⟨hsucc, hatt, herr, -⟩ := runLoop_fail_run u caps.transport
    (s.attempts.length - 1) (s.attempts.length - 1) 0
    ⟨Senderable.initMetadata, Option.none, [], []⟩ hn1
    (fun j hj => by
      have := hfail (j + 1) (by omega) (by omega)
      rwa [show j + 1 = 0 + j + 1 by omega] at this)
  rw [Nat.zero_add] at hatt herr
  refine ⟨_, _, hsend, ?_, ?_, ?_⟩
  · rw [getVal_dictUpdate_none _ _
      (by rw [getVal_addHash_ne _ _ _ (by decide), hd1])]
    rw [getVal_metadataDict_success, hsucc]
    rfl
  · rw [getVal_dictUpdate_none _ _
      (by rw [getVal_addHash_ne _ _ _ (by decide), hd2])]
    rw [getVal_metadataDict_attempt _ _ _ _ hatt]
  · rw [getVal_dictUpdate_none _ _
      (by rw [getVal_addHash_ne _ _ _ (by decide), hd3])]
    rw [getVal_metadataDict_error, hsucc, herr]
    by_cases hmsg : failMsg caps.transport (s.attempts.length - 1) = ""
    · rw [if_pos hmsg]
      simp [Senderable.errorValOf, Senderable.truthyError, hmsg,
        Senderable.initMetadata]
    · rw [if_neg hmsg]
      simp [Senderable.errorValOf, Senderable.truthyError, hmsg,
        Senderable.initMetadata]

/-- C6 witness: schedule `[0,0,0]` (two attempts) with a transport that
always raises `boom`: the outcome has `success=false`, `attempt=2` and
`error="boom"`, and `_send` returns normally. -/
theorem claim_C6_witness :
    (2 : Nat) ≤ ([0, 0, 0] : List Nat).length ∧
    (∀ j, j ≤ ([0, 0, 0] : List Nat).length - 1 → 1 ≤ j →
      failsAt (fun _ => TransportResult.raise "boom") j = true) ∧
    (∃ out rest,
      Senderable._send
        ⟨fun _ => TransportResult.raise "boom", fun _ => "SER",
         fun _ => "ENC"⟩
        ⟨[("url", Val.str "u"), ("encoding", Val.str EncodingType.JSON)],
         [], Option.none, [0, 0, 0], Val.dict [("x", Val.nat 1)]⟩ =
        .ok (out, rest) ∧
      getVal out "success" = some (Val.bool false) ∧
      getVal out "attempt" = some (Val.nat 2) ∧
      getVal out "error" =
        some (if failMsg (fun _ => TransportResult.raise "boom") 2 = ""
              then Val.none
              else Val.str (failMsg
                (fun _ => TransportResult.raise "boom") 2))) :=
  ⟨by decide, by decide,
   claim_C6_exhaustion_outcome
     ⟨fun _ => TransportResult.raise "boom", fun _ => "SER", fun _ => "ENC"⟩
     ⟨[("url", Val.str "u"), ("encoding", Val.str EncodingType.JSON)],
      [], Option.none, [0, 0, 0], Val.dict [("x", Val.nat 1)]⟩
     [("timeout", Val.nat 5),
      ("headers", Val.dict [("Content-Type", Val.str "application/json")]),
      ("data", Val.str "SER")]
     [("x", Val.nat 1)] (Val.str "u") rfl rfl (by decide) (by decide)
     rfl rfl rfl rfl⟩

end Webhooks
